import Mathlib

/-!
Verification development for the langformer transpilation attempt loop.

This file embeds, in Lean, the core of `langformer`:
  * `register_digest` / the dedup registry (src/langformer/runtime/dedup.py),
  * `ParallelExplorer.explore` (src/langformer/runtime/parallel.py),
  * `LLMTranspilerAgent._sequential_attempts`, `_build_prompt_spec`,
    `_pick_temperature` and the parallel dispatch in `transpile`
    (src/langformer/agents/transpiler.py),
  * the exception taxonomy (src/langformer/exceptions.py).

Python floats are embedded as rationals; Python dicts with string keys as
association lists (construction sites never produce duplicate keys);
`json.dumps` is embedded with its default separators.  External
collaborators (prompt renderer, LLM provider, verifier, dedup handler,
event-stream adapter, cancellation event) are oracles passed in as
functions, indexed by the attempt number where the Python object would be
invoked once per attempt in attempt order.
-/

namespace Langformer

/-- Python `None`-or-empty-string coalescing: `a or b` where `a` is an
optional string (both `None` and `""` are falsy). -/
def pyOrStr (a : Option String) (b : String) : String :=
  match a with
  | none => b
  | some s => if s = "" then b else s

/-- JSON values, as produced by the Python code feeding `json.dumps`. -/
inductive Json where
  | null
  | bool (b : Bool)
  | num (n : Int)
  | str (s : String)
  | arr (items : List Json)
  | obj (fields : List (String × Json))

/-- Escaping of one character inside a JSON string literal
(`json.dumps` escapes the quote and the backslash; other characters used
in this development pass through unchanged). -/
def escapeJsonChar (c : Char) : String :=
  if c = '\"' then "\\\"" else if c = '\\' then "\\\\" else String.singleton c

/-- Escaping of a whole JSON string literal body. -/
def escapeJsonString (s : String) : String :=
  String.join (s.data.map escapeJsonChar)

mutual
/-- Embeds `json.dumps` with Python's default separators (", " and ": "). -/
def Json.dumps : Json → String
  | .null => "null"
  | .bool true => "true"
  | .bool false => "false"
  | .num n => toString n
  | .str s => "\"" ++ escapeJsonString s ++ "\""
  | .arr items => "[" ++ dumpsList items ++ "]"
  | .obj fields => "\x7b" ++ dumpsFields fields ++ "\x7d"

/-- Comma-separated serialization of JSON array elements. -/
def dumpsList : List Json → String
  | [] => ""
  | [x] => Json.dumps x
  | x :: y :: rest => Json.dumps x ++ ", " ++ dumpsList (y :: rest)

/-- Comma-separated serialization of JSON object fields. -/
def dumpsFields : List (String × Json) → String
  | [] => ""
  | [(k, v)] => "\"" ++ escapeJsonString k ++ "\": " ++ Json.dumps v
  | (k, v) :: f :: rest =>
      "\"" ++ escapeJsonString k ++ "\": " ++ Json.dumps v ++ ", "
        ++ dumpsFields (f :: rest)
end

/-- A Python dict with string keys (association list; the code never
builds one with duplicate keys). -/
abbrev PyDict := List (String × Json)

example : Json.dumps (Json.obj [("a", Json.num 1), ("b", Json.str "x")])
    = "\x7b\"a\": 1, \"b\": \"x\"\x7d" := rfl

example : (2 : Rat) / 4 = 1 / 2 := by norm_num

/-! ## Exceptions (src/langformer/exceptions.py)

`TranspilationError(RuntimeError)`, `TranspilationAttemptError`,
`VerificationFailedError`.  A raised Python exception is embedded as its
class together with its message string. -/

/-- The exception classes of `langformer.exceptions` (plus the
`RuntimeError` base). -/
inductive PyExcClass where
  | runtimeError
  | transpilationError
  | transpilationAttemptError
  | verificationFailedError
deriving Repr, DecidableEq

/-- A raised exception: its class and its message. -/
structure PyExc where
  excClass : PyExcClass
  message : String
deriving Repr, DecidableEq

/-! ## Dedup registry (src/langformer/runtime/dedup.py)

The shared directory holding one `{digest}.json` file per digest is
embedded as an association list keyed by digest.  The wall-clock `ts`
field of the payload is omitted (it is never read back by the code). -/

/-- The payload written for a digest: `{sha256, owner_worker_id, iter}`. -/
structure DigestEntry where
  sha256 : String
  ownerWorkerId : String
  iter : Nat
deriving Repr, DecidableEq

/-- The shared registry directory: digest-keyed entries. -/
abbrev Registry := List (String × DigestEntry)

/-- Embeds `register_digest(shared_dir, digest, worker_id, iter_index)`:
atomic create-if-absent of the entry file, returning `(status, owner)`
and the updated registry.  `open("x")` succeeds exactly when no entry
with this digest exists. -/
def register_digest (reg : Registry) (digest workerId : String)
    (iterIndex : Nat) : (String × Option String) × Registry :=
  match reg.lookup digest with
  | none =>
      (("unique", none), (digest, ⟨digest, workerId, iterIndex⟩) :: reg)
  | some existing =>
      let owner := existing.ownerWorkerId
      if owner = workerId then (("duplicate_same_worker", some owner), reg)
      else (("duplicate_cross_worker", some owner), reg)

/-- One call to `register_digest` (digest, worker, attempt index). -/
structure RegCall where
  digest : String
  workerId : String
  iterIndex : Nat
deriving Repr, DecidableEq

/-- Run a sequence of `register_digest` calls against a registry,
collecting the returned statuses. -/
def runRegisterCalls (reg : Registry) :
    List RegCall → List (String × Option String) × Registry
  | [] => ([], reg)
  | c :: rest =>
      let (out, reg') := register_digest reg c.digest c.workerId c.iterIndex
      let (outs, reg'') := runRegisterCalls reg' rest
      (out :: outs, reg'')

/-! ## Temperature schedule (LLMTranspilerAgent._pick_temperature)

The constructor clamps `max_retries = max(1, max_retries)` and
`parallel_workers = max(1, parallel_workers)`; floats are embedded as
rationals. -/

/-- Embeds `_pick_temperature(idx)`:
`low` if `max_retries <= 1`, else
`low + (high - low) * min(1.0, idx / max(1, max_retries - 1))`. -/
def pick_temperature (maxRetries : Nat) (range : Rat × Rat) (idx : Nat) :
    Rat :=
  let low := range.1
  let high := range.2
  if maxRetries ≤ 1 then low
  else
    let span := high - low
    let fraction := min 1 ((idx : Rat) / ((max 1 (maxRetries - 1) : Nat) : Rat))
    low + span * fraction

/-- The temperature used for a provider call in `_sequential_attempts`:
`temp or self._pick_temperature(attempt)` — both `None` and `0.0` are
falsy, so a supplied temperature of zero falls back to the schedule. -/
def temperature_value (temp : Option Rat) (maxRetries : Nat)
    (range : Rat × Rat) (attempt : Nat) : Rat :=
  match temp with
  | none => pick_temperature maxRetries range attempt
  | some t =>
      if t = 0 then pick_temperature maxRetries range attempt else t

/-! ## Prompt task spec (LLMTranspilerAgent._build_prompt_spec)

`_build_prompt_spec` builds a `PromptTaskSpec` whose metadata is the
`base_context` dict updated with the prompt-fill payload.  The default
fill providers (langformer/prompting/fills/defaults.py) contribute only
the keys `guidelines`, `style_targets`, `quality_bar`, `plugin_prompt`
and `context_overview`, which are disjoint from the `base_context`
keys, so the structured fields below are exactly the values placed into
the prompt context. -/

/-- The `PromptTaskSpec` fields the attempt loop controls:
`kind`, `task_id`, and the `base_context` entries. -/
structure PromptSpec where
  kind : String
  taskId : String
  sourceLanguage : String
  targetLanguage : String
  unitKind : String
  sourceCode : String
  feedback : String
  attempt : Nat
  previousCode : String
deriving Repr, DecidableEq

/-! ## Verification and candidates -/

/-- Embeds `VerifyResult`: `passed` plus `details` (the
`VerificationFeedback.data` dict; `result.feedback.to_dict()` returns a
copy of it). -/
structure VerifyResult where
  passed : Bool
  details : PyDict

/-- Embeds `CandidatePatchSet`: generated files keyed by target path, and the
`notes` metadata dict (embedded as an ordered association list; the
loop only ever appends fresh keys). -/
structure Candidate where
  files : List (String × String)
  notes : PyDict

/-- Outcome of one `adapter_instance.stream(...)` call: the returned
dict `{output_text, response_id}`, or the message of a raised
exception (folded into `stream_details = {"error": str(exc)}`). -/
inductive StreamOutcome where
  | ok (outputText : String) (responseId : Option String)
  | err (msg : String)

/-- Observable events of one lane run, in execution order. -/
inductive LaneEvent where
  | promptBuilt (attempt : Nat) (spec : PromptSpec)
  | streamed (attempt : Nat) (outcome : StreamOutcome)
  | generated (attempt : Nat) (temperature : Rat)
      (result : Except String String)
  | dedupChecked (attempt : Nat) (code : String) (info : Option PyDict)
  | verified (attempt : Nat) (code : String) (result : VerifyResult)

/-- The attempt number an event belongs to. -/
def LaneEvent.attemptOf : LaneEvent → Nat
  | .promptBuilt a _ => a
  | .streamed a _ => a
  | .generated a _ _ => a
  | .dedupChecked a _ _ => a
  | .verified a _ _ => a

/-- Discriminator for the five event constructors. -/
def LaneEvent.kindTag : LaneEvent → Nat
  | .promptBuilt _ _ => 0
  | .streamed _ _ => 1
  | .generated _ _ _ => 2
  | .dedupChecked _ _ _ => 3
  | .verified _ _ _ => 4

/-- Number of synchronous provider `generate` calls in a trace. -/
def genCount (evs : List LaneEvent) : Nat :=
  (evs.filter fun e => match e with | .generated _ _ _ => true | _ => false).length

/-- Number of `verifier.verify` calls in a trace. -/
def verifyCount (evs : List LaneEvent) : Nat :=
  (evs.filter fun e => match e with | .verified _ _ _ => true | _ => false).length

/-! ## Lane environment

All external collaborators of `_sequential_attempts` are oracles.
Each Python object is invoked at most once per attempt, in strictly
increasing attempt order, so indexing the oracles by the attempt number
captures any (possibly stateful) collaborator behaviour. -/

/-- Configuration and collaborator oracles of one sequential lane. -/
structure LaneEnv where
  /-- `unit.id`. -/
  unitId : String
  /-- `unit.source_code` (optional in the dataclass). -/
  sourceCode : Option String
  /-- `unit.kind`. -/
  unitKind : String
  /-- `self._source_plugin.name`. -/
  sourceLanguage : String
  /-- `self._target_plugin.name`. -/
  targetLanguage : String
  /-- `self._max_retries` (already clamped to `max(1, ·)`). -/
  maxRetries : Nat
  /-- `self._temperature_range`. -/
  temperatureRange : Rat × Rat
  /-- The provider class name used in generation-failure messages. -/
  providerName : String
  /-- `ctx.layout.target_path(unit.id)`. -/
  targetPath : String
  /-- The fixed per-lane temperature argument `temp`. -/
  temp : Option Rat
  /-- `variant_label`. -/
  variantLabel : Option String
  /-- `self._prompt_renderer.render(...).message.content`. -/
  render : PromptSpec → String
  /-- `self._prompt_renderer.render(...).template`. -/
  renderTemplate : PromptSpec → String
  /-- `self._provider.generate(prompt, metadata, temperature)` at a
  given attempt: generated text, or the raised exception's message. -/
  provider : Nat → String → Rat → Except String String
  /-- `verifier.verify(unit, candidate, ctx)` at a given attempt, fed
  the candidate's generated code. -/
  verifier : Option (Nat → String → VerifyResult)
  /-- `dedup_handler(code, attempt, variant_label)` (exception folding
  into a `{"status": "error"}` dict included in the oracle). -/
  dedupHandler : Option (String → Nat → Option String → Option PyDict)
  /-- `cancel_event.is_set()` as observed before a given attempt
  (`False` when no cancel event is supplied). -/
  cancelSet : Nat → Bool
  /-- The event adapter: `none` when no factory is supplied; otherwise
  per attempt either `none` (the factory call raised, leaving
  `adapter_instance = None`) or the `stream` call's outcome. -/
  eventFactory : Option (Nat → Option StreamOutcome)

/-- Embeds `_build_prompt_spec(unit, ctx, feedback, attempt, previous_code)`. -/
def build_prompt_spec (env : LaneEnv) (feedback : Option String)
    (attempt : Nat) (previousCode : Option String) : PromptSpec :=
  let previousSnapshot := pyOrStr previousCode (pyOrStr env.sourceCode "")
  { kind :=
      match feedback with
      | none => "transpile_initial"
      | some _ => "transpile_refine"
    taskId := env.unitId
    sourceLanguage := env.sourceLanguage
    targetLanguage := env.targetLanguage
    unitKind := env.unitKind
    sourceCode := pyOrStr env.sourceCode ""
    feedback := pyOrStr feedback ""
    attempt := attempt
    previousCode := previousSnapshot }

/-- The synchronous provider fallback: computes the effective
temperature, calls `generate`, and wraps a raised provider exception as
`TranspilationAttemptError("LLM provider '<name>' failed: <exc>")`. -/
def providerCall (env : LaneEnv) (attempt : Nat) (prompt : String) :
    Except PyExc (String × String) × List LaneEvent :=
  let tv := temperature_value env.temp env.maxRetries env.temperatureRange
    attempt
  match env.provider attempt prompt tv with
  | .error e =>
      (.error ⟨.transpilationAttemptError,
        "LLM provider \x27" ++ env.providerName ++ "\x27 failed: " ++ e⟩,
       [.generated attempt tv (.error e)])
  | .ok generated =>
      (.ok (generated, "provider"), [.generated attempt tv (.ok generated)])

/-- The generation step of one attempt: event streaming is preferred
when a factory is supplied; the synchronous provider call is the
fallback when there is no stream output.  Returns `(code, source tag)`
(the `task_result` output and its metadata `source`), the observed
`stream_details`, and the events. -/
def generationStep (env : LaneEnv) (attempt : Nat) (prompt : String) :
    Except PyExc (String × String) × Option StreamOutcome × List LaneEvent :=
  let streamDetails : Option StreamOutcome :=
    match env.eventFactory with
    | none => none
    | some factory => factory attempt
  let sevs : List LaneEvent :=
    match streamDetails with
    | some o => [.streamed attempt o]
    | none => []
  match streamDetails with
  | some (.ok t _) =>
      if t = "" then
        let (r, gevs) := providerCall env attempt prompt
        (r, streamDetails, sevs ++ gevs)
      else (.ok (t, "event_stream"), streamDetails, sevs)
  | _ =>
      let (r, gevs) := providerCall env attempt prompt
      (r, streamDetails, sevs ++ gevs)

/-- The `notes["stream"]` entry recorded when `stream_details` is not
`None`: `{"response_id": get, "error": get}` with absent keys as
`None`. -/
def streamNote : StreamOutcome → Json
  | .ok _ rid =>
      .obj [("response_id",
              match rid with | some r => .str r | none => .null),
            ("error", .null)]
  | .err m => .obj [("response_id", .null), ("error", .str m)]

/-- The notes dict assembled for an attempt's candidate, before the
dedup entry: `attempt`, `prompt_task`, `prompt_result`, then `variant`
(if the label is truthy) and `stream` (if `stream_details` is not
`None`). -/
def attemptNotes (env : LaneEnv) (attempt : Nat) (spec : PromptSpec)
    (sourceTag : String) (streamDetails : Option StreamOutcome) : PyDict :=
  [("attempt", .num attempt),
   ("prompt_task", .obj [("kind", .str spec.kind),
                         ("template", .str (env.renderTemplate spec))]),
   ("prompt_result", .obj [("output_type", .str "code"),
                           ("source", .str sourceTag)])]
  ++ (match env.variantLabel with
      | some v => if v = "" then [] else [("variant", Json.str v)]
      | none => [])
  ++ (match streamDetails with
      | some o => [("stream", streamNote o)]
      | none => [])

/-- The feedback written after a same-worker duplicate:
`json.dumps({"reason": "duplicate_same_worker", "dedup": dedup_info})`. -/
def sameWorkerFeedback (info : PyDict) : String :=
  Json.dumps (.obj [("reason", .str "duplicate_same_worker"),
                    ("dedup", .obj info)])

/-- What one loop iteration decides: terminate with the lane's result,
or continue with the next attempt's `feedback` and `previous_code`. -/
inductive StepOutcome where
  | done (result : Except PyExc Candidate)
  | next (feedback : Option String) (previousCode : Option String)

/-- The tail of one iteration once a candidate's code survives the
dedup check: build the `CandidatePatchSet`, return it if no verifier is
configured, otherwise verify, attach the verification note, and either
return the candidate or carry the serialized note as the next
feedback (with `previous_code` set to this attempt's code). -/
def verify_phase (env : LaneEnv) (attempt : Nat) (code : String)
    (notes : PyDict) (evs : List LaneEvent) :
    StepOutcome × List LaneEvent :=
  let candidate : Candidate := ⟨[(env.targetPath, code)], notes⟩
  match env.verifier with
  | none => (.done (.ok candidate), evs)
  | some v =>
      let result := v attempt code
      let verificationNote := Json.obj result.details
      let candidate' : Candidate :=
        ⟨candidate.files,
         candidate.notes ++ [("verification", verificationNote)]⟩
      let evs' := evs ++ [.verified attempt code result]
      if result.passed then (.done (.ok candidate'), evs')
      else (.next (some (Json.dumps verificationNote)) (some code), evs')

/-- The dedup check of one iteration: absent handler and falsy handler
results proceed to verification; a truthy result records the `dedup`
note, then a `duplicate_same_worker` status skips verification and
carries the repetition note as feedback (leaving `previous_code`
unchanged), a `duplicate_cross_worker` status aborts the lane, and any
other status proceeds to verification. -/
def dedup_phase (env : LaneEnv) (attempt : Nat) (code : String)
    (previousCode : Option String) (notes0 : PyDict)
    (evs : List LaneEvent) : StepOutcome × List LaneEvent :=
  match env.dedupHandler with
  | none => verify_phase env attempt code notes0 evs
  | some handler =>
      let dedupInfo := handler code attempt env.variantLabel
      let evs' := evs ++ [.dedupChecked attempt code dedupInfo]
      match dedupInfo with
      | none => verify_phase env attempt code notes0 evs'
      | some info =>
          match info with
          | [] => verify_phase env attempt code notes0 evs'  -- falsy dict
          | _ :: _ =>
              let notes1 := notes0 ++ [("dedup", Json.obj info)]
              match info.lookup "status" with
              | some (.str s) =>
                  if s = "duplicate_same_worker" then
                    (.next (some (sameWorkerFeedback info)) previousCode,
                     evs')
                  else if s = "duplicate_cross_worker" then
                    (.done (.error ⟨.transpilationAttemptError,
                      "Duplicate candidate seen by another worker"⟩),
                     evs')
                  else verify_phase env attempt code notes1 evs'
              | _ => verify_phase env attempt code notes1 evs'

/-- The body of one `for attempt in range(1, max_retries + 1)`
iteration of `_sequential_attempts`: cancellation check, prompt build
and render, generation (stream preferred, provider fallback), optional
dedup check, optional verification. -/
def attempt_step (env : LaneEnv) (attempt : Nat)
    (feedback previousCode : Option String) :
    StepOutcome × List LaneEvent :=
  if env.cancelSet attempt then
    (.done (.error ⟨.transpilationAttemptError,
      "Transpiler canceled by orchestrator"⟩), [])
  else
    let spec := build_prompt_spec env feedback attempt previousCode
    let prompt := env.render spec
    let pevs : List LaneEvent := [.promptBuilt attempt spec]
    match generationStep env attempt prompt with
    | (.error exc, _, gevs) => (.done (.error exc), pevs ++ gevs)
    | (.ok (code, sourceTag), streamDetails, gevs) =>
        dedup_phase env attempt code previousCode
          (attemptNotes env attempt spec sourceTag streamDetails)
          (pevs ++ gevs)

/-- The retry-budget-exhausted error raised after the `for` loop. -/
def budgetError (unitId : String) : PyExc :=
  ⟨.transpilationAttemptError,
   "Failed to transpile unit " ++ unitId ++ " within retry budget"⟩

/-- The attempt loop from a given attempt number, with `remaining`
iterations left (`remaining = max_retries + 1 - attempt` at every
reachable state; `remaining = 0` means the `for` loop is over and the
budget error is raised). -/
def attempts_from (env : LaneEnv) :
    Nat → Nat → Option String → Option String →
    Except PyExc Candidate × List LaneEvent
  | 0, _, _, _ => (.error (budgetError env.unitId), [])
  | remaining + 1, attempt, feedback, previousCode =>
      match attempt_step env attempt feedback previousCode with
      | (.done r, evs) => (r, evs)
      | (.next fb pc, evs) =>
          let (r, evs') := attempts_from env remaining (attempt + 1) fb pc
          (r, evs ++ evs')

/-- Embeds `_sequential_attempts`: attempts `1 .. max_retries`, starting with
no feedback and no previous code. -/
def sequential_attempts (env : LaneEnv) :
    Except PyExc Candidate × List LaneEvent :=
  attempts_from env env.maxRetries 1 none none

/-! ## Parallel exploration (src/langformer/runtime/parallel.py)

`ParallelExplorer.explore` submits the callables to a thread pool and
scans futures in completion order: a raised exception is swallowed, a
`None` result is skipped, and the first non-`None` result is returned;
if the scan ends with no winner it returns `None`.  The embedding takes
the per-lane outcomes in completion order. -/

/-- Embeds `ParallelExplorer.explore` over the lane outcomes in completion
order: each future either raised (`Except.error`) or returned a value
(`Except.ok`, possibly `None`). -/
def explore {α : Type} :
    List (Except PyExc (Option α)) → Option α
  | [] => none
  | .error _ :: rest => explore rest
  | .ok none :: rest => explore rest
  | .ok (some c) :: _ => some c

/-- The parallel branch of `LLMTranspilerAgent.transpile`: a `None`
explorer result becomes
`TranspilationAttemptError("All parallel attempts failed for unit <id>")`;
a candidate is returned unchanged. -/
def transpile_parallel (unitId : String)
    (laneOutcomes : List (Except PyExc (Option Candidate))) :
    Except PyExc Candidate :=
  match explore laneOutcomes with
  | none =>
      .error ⟨.transpilationAttemptError,
        "All parallel attempts failed for unit " ++ unitId⟩
  | some candidate => .ok candidate

/-! ## Helper lemmas -/

theorem genCount_append (a b : List LaneEvent) :
    genCount (a ++ b) = genCount a + genCount b := by
  simp [genCount, List.filter_append]

theorem verifyCount_append (a b : List LaneEvent) :
    verifyCount (a ++ b) = verifyCount a + verifyCount b := by
  simp [verifyCount, List.filter_append]

theorem providerCall_attemptOf (env : LaneEnv) (a : Nat) (p : String) :
    ∀ e ∈ (providerCall env a p).2, e.attemptOf = a := by
  intro e he
  simp only [providerCall] at he
  rcases hp : env.provider a p
      (temperature_value env.temp env.maxRetries env.temperatureRange a) with
    msg | g <;> simp only [hp] at he <;> simp_all [LaneEvent.attemptOf]

theorem generationStep_attemptOf (env : LaneEnv) (a : Nat) (p : String) :
    ∀ e ∈ (generationStep env a p).2.2, e.attemptOf = a := by
  intro e he
  have hp := providerCall_attemptOf env a p
  simp only [generationStep] at he
  rcases hpc : providerCall env a p with ⟨r, gevs⟩
  rw [hpc] at he hp
  rcases hef : env.eventFactory with _ | factory <;> simp only [hef] at he
  · simp only [List.nil_append] at he
    exact hp e he
  · rcases hfa : factory a with _ | o <;> simp only [hfa] at he
    · simp only [List.nil_append] at he
      exact hp e he
    · rcases o with ⟨t, rid⟩ | m
      · by_cases ht : t = ""
        · simp only [ht, if_pos, ite_true, reduceIte] at he
          rcases List.mem_append.mp he with h | h
          · simp only [List.mem_singleton] at h
            simp [h, LaneEvent.attemptOf]
          · exact hp e h
        · simp only [if_neg ht] at he
          simp only [List.mem_singleton] at he
          simp [he, LaneEvent.attemptOf]
      · rcases List.mem_append.mp he with h | h
        · simp only [List.mem_singleton] at h
          simp [h, LaneEvent.attemptOf]
        · exact hp e h

theorem verify_phase_events (env : LaneEnv) (a : Nat) (code : String)
    (notes : PyDict) (evs : List LaneEvent) :
    ∃ extra, (verify_phase env a code notes evs).2 = evs ++ extra ∧
      ∀ e ∈ extra, e.attemptOf = a ∧ (e.kindTag = 3 ∨ e.kindTag = 4) := by
  unfold verify_phase
  rcases hv : env.verifier with _ | v <;> simp only [hv]
  · exact ⟨[], by simp⟩
  · refine ⟨[.verified a code (v a code)], ?_, ?_⟩
    · split <;> rfl
    · simp [LaneEvent.attemptOf, LaneEvent.kindTag]

theorem dedup_phase_events (env : LaneEnv) (a : Nat) (code : String)
    (pc : Option String) (notes0 : PyDict) (evs : List LaneEvent) :
    ∃ extra, (dedup_phase env a code pc notes0 evs).2 = evs ++ extra ∧
      ∀ e ∈ extra, e.attemptOf = a ∧ (e.kindTag = 3 ∨ e.kindTag = 4) := by
  unfold dedup_phase
  rcases hd : env.dedupHandler with _ | handler <;> simp only [hd]
  · exact verify_phase_events env a code notes0 evs
  · have base : ∀ notes,
        ∃ extra,
          (verify_phase env a code notes
              (evs ++ [.dedupChecked a code
                (handler code a env.variantLabel)])).2 = evs ++ extra ∧
          ∀ e ∈ extra, e.attemptOf = a ∧
            (e.kindTag = 3 ∨ e.kindTag = 4) := by
      intro notes
      obtain ⟨extra, hev, hall⟩ := verify_phase_events env a code notes
        (evs ++ [.dedupChecked a code (handler code a env.variantLabel)])
      refine ⟨[.dedupChecked a code (handler code a env.variantLabel)]
        ++ extra, by simpa using hev, ?_⟩
      intro e he
      rcases List.mem_append.mp he with h | h
      · simp only [List.mem_singleton] at h
        simp [h, LaneEvent.attemptOf, LaneEvent.kindTag]
      · exact hall e h
    rcases hdi : handler code a env.variantLabel with _ | info <;>
      simp only [hdi]
    · simpa [hdi] using base _
    · rcases info with _ | ⟨kv, rest⟩
      · simpa [hdi] using base _
      · rcases hls : List.lookup "status" (kv :: rest) with _ | j
        · simp only [hls]
          simpa [hdi] using base _
        · rcases j with _ | b | n | s | items | fields <;> simp only [hls]
          case str =>
            by_cases h1 : s = "duplicate_same_worker"
            · refine ⟨[.dedupChecked a code (some (kv :: rest))], ?_, ?_⟩
              · simp [h1, hdi]
              · simp [LaneEvent.attemptOf, LaneEvent.kindTag]
            · by_cases h2 : s = "duplicate_cross_worker"
              · refine ⟨[.dedupChecked a code (some (kv :: rest))], ?_, ?_⟩
                · simp [h1, h2, hdi]
                · simp [LaneEvent.attemptOf, LaneEvent.kindTag]
              · simp only [h1, h2, if_false, reduceIte]
                simpa [hdi] using base _
          all_goals simpa [hdi] using base _

theorem attempt_step_attemptOf (env : LaneEnv) (a : Nat)
    (fb pc : Option String) :
    ∀ e ∈ (attempt_step env a fb pc).2, e.attemptOf = a := by
  intro e he
  rcases hc : env.cancelSet a with _ | _
  · have hg := generationStep_attemptOf env a
      (env.render (build_prompt_spec env fb a pc))
    rcases hgs : generationStep env a
        (env.render (build_prompt_spec env fb a pc)) with ⟨r, sd, gevs⟩
    simp only [attempt_step, hc, Bool.false_eq_true, reduceIte, hgs] at he
    rw [hgs] at hg
    rcases r with exc | ⟨code, tag⟩
    · simp only [] at he
      rcases List.mem_append.mp he with h | h
      · simp only [List.mem_singleton] at h
        simp [h, LaneEvent.attemptOf]
      · exact hg e h
    · simp only [] at he
      obtain ⟨extra, hev, hall⟩ := dedup_phase_events env a code pc
        (attemptNotes env a (build_prompt_spec env fb a pc) tag sd)
        ([.promptBuilt a (build_prompt_spec env fb a pc)] ++ gevs)
      rw [hev] at he
      rcases List.mem_append.mp he with h | h
      · rcases List.mem_append.mp h with h' | h'
        · simp only [List.mem_singleton] at h'
          simp [h', LaneEvent.attemptOf]
        · exact hg e h'
      · exact (hall e h).1
  · simp [attempt_step, hc] at he

theorem providerCall_events (env : LaneEnv) (a : Nat) (p : String) :
    ∀ e ∈ (providerCall env a p).2, ∃ res,
      e = .generated a
        (temperature_value env.temp env.maxRetries env.temperatureRange a)
        res := by
  intro e he
  simp only [providerCall] at he
  rcases hp : env.provider a p
      (temperature_value env.temp env.maxRetries env.temperatureRange a) with
    msg | g <;> simp only [hp] at he <;>
    simp only [List.mem_singleton] at he <;> exact ⟨_, he⟩

theorem generationStep_events (env : LaneEnv) (a : Nat) (p : String) :
    ∀ e ∈ (generationStep env a p).2.2,
      e.kindTag = 1 ∨
      ∃ res, e = .generated a
        (temperature_value env.temp env.maxRetries env.temperatureRange a)
        res := by
  intro e he
  have hp := providerCall_events env a p
  simp only [generationStep] at he
  rcases hpc : providerCall env a p with ⟨r, gevs⟩
  rw [hpc] at he hp
  rcases hef : env.eventFactory with _ | factory <;> simp only [hef] at he
  · simp only [List.nil_append] at he
    exact .inr (hp e he)
  · rcases hfa : factory a with _ | o <;> simp only [hfa] at he
    · simp only [List.nil_append] at he
      exact .inr (hp e he)
    · rcases o with ⟨t, rid⟩ | m
      · by_cases ht : t = ""
        · simp only [ht, if_pos, ite_true, reduceIte] at he
          rcases List.mem_append.mp he with h | h
          · simp only [List.mem_singleton] at h
            exact .inl (by simp [h, LaneEvent.kindTag])
          · exact .inr (hp e h)
        · simp only [if_neg ht] at he
          simp only [List.mem_singleton] at he
          exact .inl (by simp [he, LaneEvent.kindTag])
      · rcases List.mem_append.mp he with h | h
        · simp only [List.mem_singleton] at h
          exact .inl (by simp [h, LaneEvent.kindTag])
        · exact .inr (hp e h)

theorem attempt_step_promptBuilt (env : LaneEnv) (a : Nat)
    (fb pc : Option String) :
    ∀ j spec, LaneEvent.promptBuilt j spec ∈ (attempt_step env a fb pc).2 →
      spec = build_prompt_spec env fb a pc := by
  intro j spec he
  rcases hc : env.cancelSet a with _ | _
  · have hg := generationStep_events env a
      (env.render (build_prompt_spec env fb a pc))
    rcases hgs : generationStep env a
        (env.render (build_prompt_spec env fb a pc)) with ⟨r, sd, gevs⟩
    simp only [attempt_step, hc, Bool.false_eq_true, reduceIte, hgs] at he
    rw [hgs] at hg
    have hgev : ∀ e ∈ gevs, LaneEvent.promptBuilt j spec = e → False := by
      intro e hmem hEq
      rcases hg e hmem with hk | ⟨res, hres⟩
      · rw [← hEq] at hk
        simp [LaneEvent.kindTag] at hk
      · rw [hres] at hEq
        exact LaneEvent.noConfusion hEq
    rcases r with exc | ⟨code, tag⟩
    · simp only [] at he
      rcases List.mem_append.mp he with h | h
      · simp only [List.mem_singleton] at h
        exact (LaneEvent.promptBuilt.injEq _ _ _ _).mp h |>.2
      · exact (hgev _ h rfl).elim
    · simp only [] at he
      obtain ⟨extra, hev, hall⟩ := dedup_phase_events env a code pc
        (attemptNotes env a (build_prompt_spec env fb a pc) tag sd)
        ([.promptBuilt a (build_prompt_spec env fb a pc)] ++ gevs)
      rw [hev] at he
      rcases List.mem_append.mp he with h | h
      · rcases List.mem_append.mp h with h' | h'
        · simp only [List.mem_singleton] at h'
          exact (LaneEvent.promptBuilt.injEq _ _ _ _).mp h' |>.2
        · exact (hgev _ h' rfl).elim
      · rcases (hall _ h).2 with hk | hk <;>
          simp [LaneEvent.kindTag] at hk
  · simp [attempt_step, hc] at he

theorem attempt_step_generated (env : LaneEnv) (a : Nat)
    (fb pc : Option String) :
    ∀ j t res, LaneEvent.generated j t res ∈ (attempt_step env a fb pc).2 →
      t = temperature_value env.temp env.maxRetries env.temperatureRange a := by
  intro j t res he
  rcases hc : env.cancelSet a with _ | _
  · have hg := generationStep_events env a
      (env.render (build_prompt_spec env fb a pc))
    rcases hgs : generationStep env a
        (env.render (build_prompt_spec env fb a pc)) with ⟨r, sd, gevs⟩
    simp only [attempt_step, hc, Bool.false_eq_true, reduceIte, hgs] at he
    rw [hgs] at hg
    have hgev : ∀ e ∈ gevs, LaneEvent.generated j t res = e →
        t = temperature_value env.temp env.maxRetries env.temperatureRange a := by
      intro e hmem hEq
      rcases hg e hmem with hk | ⟨res', hres⟩
      · rw [← hEq] at hk
        simp [LaneEvent.kindTag] at hk
      · rw [hres] at hEq
        exact ((LaneEvent.generated.injEq _ _ _ _ _ _).mp hEq).2.1
    rcases r with exc | ⟨code, tag⟩
    · simp only [] at he
      rcases List.mem_append.mp he with h | h
      · simp only [List.mem_singleton] at h
        exact LaneEvent.noConfusion h
      · exact hgev _ h rfl
    · simp only [] at he
      obtain ⟨extra, hev, hall⟩ := dedup_phase_events env a code pc
        (attemptNotes env a (build_prompt_spec env fb a pc) tag sd)
        ([.promptBuilt a (build_prompt_spec env fb a pc)] ++ gevs)
      rw [hev] at he
      rcases List.mem_append.mp he with h | h
      · rcases List.mem_append.mp h with h' | h'
        · simp only [List.mem_singleton] at h'
          exact LaneEvent.noConfusion h'
        · exact hgev _ h' rfl
      · rcases (hall _ h).2 with hk | hk <;>
          simp [LaneEvent.kindTag] at hk
  · simp [attempt_step, hc] at he

theorem verify_phase_next (env : LaneEnv) (a : Nat) (code : String)
    (notes : PyDict) (evs0 : List LaneEvent) (fb' pc' : Option String)
    (evs : List LaneEvent)
    (h : verify_phase env a code notes evs0 = (.next fb' pc', evs)) :
    ∃ v, env.verifier = some v ∧ (v a code).passed = false ∧
      fb' = some (Json.dumps (Json.obj (v a code).details)) ∧
      pc' = some code ∧
      evs = evs0 ++ [.verified a code (v a code)] := by
  unfold verify_phase at h
  rcases hv : env.verifier with _ | v <;> simp only [hv] at h
  · simp at h
  · refine ⟨v, rfl, ?_⟩
    by_cases hp : (v a code).passed
    · simp [hp] at h
    · simp only [hp, Bool.false_eq_true, if_false, reduceIte,
        Prod.mk.injEq] at h
      obtain ⟨h1, h2⟩ := h
      obtain ⟨hfb, hpc⟩ := (StepOutcome.next.injEq _ _ _ _).mp h1.symm
      exact ⟨Bool.not_eq_true _ |>.mp hp, hfb, hpc, h2.symm⟩

theorem dedup_phase_next (env : LaneEnv) (a : Nat) (code : String)
    (pc0 : Option String) (notes0 : PyDict) (evs0 : List LaneEvent)
    (fb' pc' : Option String) (evs : List LaneEvent)
    (h : dedup_phase env a code pc0 notes0 evs0 = (.next fb' pc', evs))
    (hin : ∀ i c r, LaneEvent.verified i c r ∉ evs0) :
    ∀ i c r, LaneEvent.verified i c r ∈ evs →
      r.passed = false ∧ fb' = some (Json.dumps (Json.obj r.details)) := by
  have fromVerify : ∀ (notes : PyDict) (evs1 : List LaneEvent),
      verify_phase env a code notes evs1 = (.next fb' pc', evs) →
      (∀ i c r, LaneEvent.verified i c r ∉ evs1) →
      ∀ i c r, LaneEvent.verified i c r ∈ evs →
        r.passed = false ∧ fb' = some (Json.dumps (Json.obj r.details)) := by
    intro notes evs1 hv hnotin i c r hmem
    obtain ⟨v, _, hfail, hfb, _, hevs⟩ :=
      verify_phase_next env a code notes evs1 fb' pc' evs hv
    rw [hevs] at hmem
    rcases List.mem_append.mp hmem with hm | hm
    · exact absurd hm (hnotin i c r)
    · simp only [List.mem_singleton] at hm
      obtain ⟨_, hceq, hreq⟩ := (LaneEvent.verified.injEq _ _ _ _ _ _).mp hm
      subst hceq
      rw [hreq]
      exact ⟨hfail, hfb⟩
  have hinD : ∀ (d : Option PyDict) i c r,
      LaneEvent.verified i c r ∉ evs0 ++ [.dedupChecked a code d] := by
    intro d i c r hmem
    rcases List.mem_append.mp hmem with hm | hm
    · exact hin i c r hm
    · simp only [List.mem_singleton] at hm
      exact LaneEvent.noConfusion hm
  unfold dedup_phase at h
  rcases hd : env.dedupHandler with _ | handler <;> simp only [hd] at h
  · exact fromVerify notes0 evs0 h hin
  · rcases hdi : handler code a env.variantLabel with _ | info <;>
      simp only [hdi] at h
    · exact fromVerify notes0 _ h (hinD none)
    · rcases info with _ | ⟨kv, rest⟩
      · exact fromVerify notes0 _ h (hinD (some []))
      · rcases hls : List.lookup "status" (kv :: rest) with _ | j <;>
          simp only [hls] at h
        · exact fromVerify _ _ h (hinD (some (kv :: rest)))
        · rcases j with _ | b | n | s | items | fields
          case str =>
            simp only [] at h
            by_cases h1 : s = "duplicate_same_worker"
            · rw [if_pos h1] at h
              simp only [Prod.mk.injEq, StepOutcome.next.injEq] at h
              intro i c r hmem
              rw [← h.2] at hmem
              exact absurd hmem (hinD (some (kv :: rest)) i c r)
            · by_cases h2 : s = "duplicate_cross_worker"
              · rw [if_neg h1, if_pos h2] at h
                simp at h
              · rw [if_neg h1, if_neg h2] at h
                exact fromVerify _ _ h (hinD (some (kv :: rest)))
          all_goals exact fromVerify _ _ h (hinD (some (kv :: rest)))

theorem attempt_step_next_verified (env : LaneEnv) (a : Nat)
    (fb pc fb' pc' : Option String) (evs : List LaneEvent)
    (hstep : attempt_step env a fb pc = (.next fb' pc', evs)) :
    ∀ i c r, LaneEvent.verified i c r ∈ evs →
      r.passed = false ∧ fb' = some (Json.dumps (Json.obj r.details)) := by
  rcases hc : env.cancelSet a with _ | _
  · rcases hgs : generationStep env a
        (env.render (build_prompt_spec env fb a pc)) with ⟨r0, sd, gevs⟩
    have hg := generationStep_events env a
      (env.render (build_prompt_spec env fb a pc))
    rw [hgs] at hg
    simp only [attempt_step, hc, Bool.false_eq_true, reduceIte, hgs]
      at hstep
    rcases r0 with exc | ⟨code, tag⟩
    · simp only [] at hstep
      simp at hstep
    · simp only [] at hstep
      refine dedup_phase_next env a code pc _ _ fb' pc' evs hstep ?_
      intro i c r hmem
      rcases List.mem_append.mp hmem with hm | hm
      · simp only [List.mem_singleton] at hm
        exact LaneEvent.noConfusion hm
      · rcases hg _ hm with hk | ⟨res, hres⟩
        · simp [LaneEvent.kindTag] at hk
        · exact LaneEvent.noConfusion hres
  · simp only [attempt_step, hc, if_pos, ite_true, reduceIte,
      Prod.mk.injEq] at hstep
    exact absurd hstep.1 (by simp)

theorem dumps_obj_ne_empty (l : List (String × Json)) :
    Json.dumps (Json.obj l) ≠ "" := by
  intro h
  have hl := congrArg String.length h
  rw [Json.dumps, String.length_append, String.length_append] at hl
  have h1 : ("\x7b" : String).length = 1 := rfl
  have h0 : ("" : String).length = 0 := rfl
  omega

theorem attempts_from_attemptOf (env : LaneEnv) :
    ∀ (n a : Nat) (fb pc : Option String),
      ∀ e ∈ (attempts_from env n a fb pc).2,
        a ≤ e.attemptOf ∧ e.attemptOf < a + n := by
  intro n
  induction n with
  | zero => intro a fb pc e he; simp [attempts_from] at he
  | succ m ih =>
      intro a fb pc e he
      rcases hst : attempt_step env a fb pc with ⟨out, evs1⟩
      have hstep := attempt_step_attemptOf env a fb pc
      rw [hst] at hstep
      simp only [attempts_from, hst] at he
      rcases out with r | ⟨fb', pc'⟩ <;> simp only [] at he
      · have := hstep e he
        omega
      ·
        rcases List.mem_append.mp he with h | h
        · have := hstep e h
          omega
        · have := ih (a + 1) fb' pc' e h
          omega

theorem attempts_from_promptBuilt (env : LaneEnv) :
    ∀ (n a : Nat) (fb pc : Option String) (spec : PromptSpec),
      LaneEvent.promptBuilt a spec ∈ (attempts_from env n a fb pc).2 →
      spec = build_prompt_spec env fb a pc := by
  intro n
  induction n with
  | zero => intro a fb pc spec he; simp [attempts_from] at he
  | succ m _ =>
      intro a fb pc spec he
      rcases hst : attempt_step env a fb pc with ⟨out, evs1⟩
      have hspec := attempt_step_promptBuilt env a fb pc
      rw [hst] at hspec
      simp only [attempts_from, hst] at he
      rcases out with r | ⟨fb', pc'⟩ <;> simp only [] at he
      · exact hspec a spec he
      ·
        rcases List.mem_append.mp he with h | h
        · exact hspec a spec h
        · have := (attempts_from_attemptOf env m (a + 1) fb' pc' _ h).1
          simp [LaneEvent.attemptOf] at this

theorem attempts_from_threading (env : LaneEnv) :
    ∀ (n a : Nat) (fb pc : Option String) (i : Nat) (c : String)
      (r : VerifyResult) (spec : PromptSpec),
      LaneEvent.verified i c r ∈ (attempts_from env n a fb pc).2 →
      r.passed = false →
      LaneEvent.promptBuilt (i + 1) spec ∈ (attempts_from env n a fb pc).2 →
      spec.feedback = Json.dumps (Json.obj r.details) ∧
        spec.kind = "transpile_refine" := by
  intro n
  induction n with
  | zero => intro a fb pc i c r spec hv _ _; simp [attempts_from] at hv
  | succ m ih =>
      intro a fb pc i c r spec hv hfail hp
      rcases hst : attempt_step env a fb pc with ⟨out, evs1⟩
      have hstep := attempt_step_attemptOf env a fb pc
      rw [hst] at hstep
      simp only [attempts_from, hst] at hv hp
      rcases out with res | ⟨fb', pc'⟩ <;> simp only [] at hv hp
      · have := hstep _ hp
        have hva := hstep _ hv
        simp [LaneEvent.attemptOf] at this hva
        omega
      ·
        rcases List.mem_append.mp hv with hv1 | hv2
        · -- the verified event belongs to this step: i = a
          have hia : i = a := by
            have := hstep _ hv1
            simpa [LaneEvent.attemptOf] using this
          subst hia
          -- the (i+1) prompt cannot be in this step's events
          rcases List.mem_append.mp hp with hp1 | hp2
          · have := hstep _ hp1
            simp [LaneEvent.attemptOf] at this
          · -- it is the head prompt of the recursive call
            have hspec := attempts_from_promptBuilt env m (i + 1) fb' pc'
              spec hp2
            have hfb : fb' = some (Json.dumps (Json.obj r.details)) :=
              (attempt_step_next_verified env i fb pc fb' pc' evs1 hst
                i c r hv1).2
            subst hspec
            rw [hfb]
            constructor
            · simp [build_prompt_spec, pyOrStr, dumps_obj_ne_empty r.details]
            · simp [build_prompt_spec]
        · -- the verified event is in the recursive call: i ≥ a + 1
          have hge := (attempts_from_attemptOf env m (a + 1) fb' pc' _ hv2).1
          simp only [LaneEvent.attemptOf] at hge
          rcases List.mem_append.mp hp with hp1 | hp2
          · have := hstep _ hp1
            simp [LaneEvent.attemptOf] at this
            omega
          · exact ih (a + 1) fb' pc' i c r spec hv2 hfail hp2

theorem attempt_step_plain_fail (env : LaneEnv) (a : Nat)
    (fb pc : Option String) (g : String) (v : Nat → String → VerifyResult)
    (hc : env.cancelSet a = false) (hf : env.eventFactory = none)
    (hd : env.dedupHandler = none) (hv : env.verifier = some v)
    (hp : env.provider a (env.render (build_prompt_spec env fb a pc))
        (temperature_value env.temp env.maxRetries env.temperatureRange a)
      = .ok g)
    (hfail : (v a g).passed = false) :
    attempt_step env a fb pc =
      (.next (some (Json.dumps (Json.obj (v a g).details))) (some g),
       [.promptBuilt a (build_prompt_spec env fb a pc),
        .generated a
          (temperature_value env.temp env.maxRetries env.temperatureRange a)
          (.ok g),
        .verified a g (v a g)]) := by
  simp [attempt_step, generationStep, providerCall, dedup_phase,
    verify_phase, hc, hf, hd, hv, hp, hfail]

theorem attempt_step_plain_pass (env : LaneEnv) (a : Nat)
    (fb pc : Option String) (g : String) (v : Nat → String → VerifyResult)
    (hc : env.cancelSet a = false) (hf : env.eventFactory = none)
    (hd : env.dedupHandler = none) (hv : env.verifier = some v)
    (hp : env.provider a (env.render (build_prompt_spec env fb a pc))
        (temperature_value env.temp env.maxRetries env.temperatureRange a)
      = .ok g)
    (hpass : (v a g).passed = true) :
    attempt_step env a fb pc =
      (.done (.ok ⟨[(env.targetPath, g)],
         attemptNotes env a (build_prompt_spec env fb a pc) "provider" none
           ++ [("verification", Json.obj (v a g).details)]⟩),
       [.promptBuilt a (build_prompt_spec env fb a pc),
        .generated a
          (temperature_value env.temp env.maxRetries env.temperatureRange a)
          (.ok g),
        .verified a g (v a g)]) := by
  simp [attempt_step, generationStep, providerCall, dedup_phase,
    verify_phase, hc, hf, hd, hv, hp, hpass]

theorem attempts_from_exhaust (env : LaneEnv) (v : Nat → String → VerifyResult)
    (hc : ∀ a, env.cancelSet a = false) (hf : env.eventFactory = none)
    (hd : env.dedupHandler = none) (hv : env.verifier = some v)
    (hfail : ∀ a c, (v a c).passed = false)
    (hprov : ∀ a p t, ∃ g, env.provider a p t = .ok g) :
    ∀ (n a : Nat) (fb pc : Option String),
      (attempts_from env n a fb pc).1 = .error (budgetError env.unitId) ∧
      genCount (attempts_from env n a fb pc).2 = n ∧
      verifyCount (attempts_from env n a fb pc).2 = n := by
  intro n
  induction n with
  | zero => intro a fb pc; simp [attempts_from, genCount, verifyCount]
  | succ m ih =>
      intro a fb pc
      obtain ⟨g, hg⟩ := hprov a (env.render (build_prompt_spec env fb a pc))
        (temperature_value env.temp env.maxRetries env.temperatureRange a)
      have hstep := attempt_step_plain_fail env a fb pc g v (hc a) hf hd hv
        hg (hfail a g)
      simp only [attempts_from, hstep]
      obtain ⟨ih1, ih2, ih3⟩ := ih (a + 1)
        (some (Json.dumps (Json.obj (v a g).details))) (some g)
      have hg1 : genCount
          [LaneEvent.promptBuilt a (build_prompt_spec env fb a pc),
           LaneEvent.generated a
             (temperature_value env.temp env.maxRetries env.temperatureRange a)
             (Except.ok g),
           LaneEvent.verified a g (v a g)] = 1 := rfl
      have hv1 : verifyCount
          [LaneEvent.promptBuilt a (build_prompt_spec env fb a pc),
           LaneEvent.generated a
             (temperature_value env.temp env.maxRetries env.temperatureRange a)
             (Except.ok g),
           LaneEvent.verified a g (v a g)] = 1 := rfl
      refine ⟨ih1, ?_, ?_⟩
      · rw [genCount_append, hg1, ih2]
        omega
      · rw [verifyCount_append, hv1, ih3]
        omega

theorem attempts_from_first_success (env : LaneEnv)
    (v : Nat → String → VerifyResult) (i : Nat)
    (hc : ∀ a, env.cancelSet a = false) (hf : env.eventFactory = none)
    (hd : env.dedupHandler = none) (hv : env.verifier = some v)
    (hbefore : ∀ a c, a < i → (v a c).passed = false)
    (hat : ∀ c, (v i c).passed = true)
    (hprov : ∀ a p t, ∃ g, env.provider a p t = .ok g) :
    ∀ (n a : Nat) (fb pc : Option String), a ≤ i → i < a + n →
      ∃ g spec,
        (attempts_from env n a fb pc).1 =
          .ok ⟨[(env.targetPath, g)],
            attemptNotes env i spec "provider" none
              ++ [("verification", Json.obj (v i g).details)]⟩ ∧
        LaneEvent.verified i g (v i g) ∈ (attempts_from env n a fb pc).2 ∧
        genCount (attempts_from env n a fb pc).2 = i + 1 - a ∧
        verifyCount (attempts_from env n a fb pc).2 = i + 1 - a ∧
        ∀ e ∈ (attempts_from env n a fb pc).2, e.attemptOf ≤ i := by
  intro n
  induction n with
  | zero => intro a fb pc h1 h2; omega
  | succ m ih =>
      intro a fb pc h1 h2
      obtain ⟨g, hg⟩ := hprov a (env.render (build_prompt_spec env fb a pc))
        (temperature_value env.temp env.maxRetries env.temperatureRange a)
      rcases Nat.eq_or_lt_of_le h1 with heq | hlt
      · subst heq
        have hstep := attempt_step_plain_pass env a fb pc g v (hc a) hf hd
          hv hg (hat g)
        simp only [attempts_from, hstep]
        refine ⟨g, build_prompt_spec env fb a pc, rfl, ?_, ?_, ?_, ?_⟩
        · simp
        · show genCount [_, _, _] = a + 1 - a
          have h1 : a + 1 - a = 1 := by omega
          rw [h1]
          rfl
        · show verifyCount [_, _, _] = a + 1 - a
          have h1 : a + 1 - a = 1 := by omega
          rw [h1]
          rfl
        · intro e he
          simp only [List.mem_cons, List.mem_singleton,
            List.not_mem_nil] at he
          rcases he with h | h | h | h <;>
            first
            | (subst h; simp [LaneEvent.attemptOf])
            | exact absurd h (by simp)
      · have hstep := attempt_step_plain_fail env a fb pc g v (hc a) hf hd
          hv hg (hbefore a g hlt)
        simp only [attempts_from, hstep]
        obtain ⟨g', spec', hres, hmem, hgc, hvc, hbound⟩ := ih (a + 1)
          (some (Json.dumps (Json.obj (v a g).details))) (some g)
          hlt (by omega)
        have hg1 : genCount
            [LaneEvent.promptBuilt a (build_prompt_spec env fb a pc),
             LaneEvent.generated a
               (temperature_value env.temp env.maxRetries
                 env.temperatureRange a)
               (Except.ok g),
             LaneEvent.verified a g (v a g)] = 1 := rfl
        have hv1 : verifyCount
            [LaneEvent.promptBuilt a (build_prompt_spec env fb a pc),
             LaneEvent.generated a
               (temperature_value env.temp env.maxRetries
                 env.temperatureRange a)
               (Except.ok g),
             LaneEvent.verified a g (v a g)] = 1 := rfl
        refine ⟨g', spec', hres, ?_, ?_, ?_, ?_⟩
        · simp [hmem]
        · rw [genCount_append, hg1, hgc]
          omega
        · rw [verifyCount_append, hv1, hvc]
          omega
        · intro e he
          simp only [List.mem_append] at he
          rcases he with h | h
          · simp only [List.mem_cons, List.mem_singleton,
              List.not_mem_nil] at h
            rcases h with h | h | h | h <;>
              first
              | (subst h; simp [LaneEvent.attemptOf]; omega)
              | exact absurd h (by simp)
          · exact hbound e h

theorem attempts_from_generated (env : LaneEnv) :
    ∀ (n a : Nat) (fb pc : Option String) (j : Nat) (t : Rat)
      (res : Except String String),
      LaneEvent.generated j t res ∈ (attempts_from env n a fb pc).2 →
      t = temperature_value env.temp env.maxRetries env.temperatureRange j := by
  intro n
  induction n with
  | zero => intro a fb pc j t res he; simp [attempts_from] at he
  | succ m ih =>
      intro a fb pc j t res he
      rcases hst : attempt_step env a fb pc with ⟨out, evs1⟩
      have hgen := attempt_step_generated env a fb pc
      have hatt := attempt_step_attemptOf env a fb pc
      rw [hst] at hgen hatt
      simp only [attempts_from, hst] at he
      rcases out with r | ⟨fb', pc'⟩ <;> simp only [] at he
      · have hj : j = a := by
          simpa [LaneEvent.attemptOf] using hatt _ he
        subst hj
        exact hgen j t res he
      · rcases List.mem_append.mp he with h | h
        · have hj : j = a := by
            simpa [LaneEvent.attemptOf] using hatt _ h
          subst hj
          exact hgen j t res h
        · exact ih (a + 1) fb' pc' j t res h

theorem lookup_verification (env : LaneEnv) (a : Nat) (spec : PromptSpec)
    (tag : String) (sd : Option StreamOutcome) (j : Json) :
    List.lookup "verification"
      (attemptNotes env a spec tag sd ++ [("verification", j)]) = some j := by
  unfold attemptNotes
  rcases env.variantLabel with _ | vl <;> rcases sd with _ | o
  · simp [List.lookup]
  · simp [List.lookup]
  · by_cases hvl : vl = "" <;> simp [hvl, List.lookup]
  · by_cases hvl : vl = "" <;> simp [hvl, List.lookup]

theorem attempt_step_dup_same (env : LaneEnv) (a : Nat)
    (fb pc : Option String) (g : String)
    (handler : String → Nat → Option String → Option PyDict) (info : PyDict)
    (hc : env.cancelSet a = false) (hf : env.eventFactory = none)
    (hp : env.provider a (env.render (build_prompt_spec env fb a pc))
        (temperature_value env.temp env.maxRetries env.temperatureRange a)
      = .ok g)
    (hd : env.dedupHandler = some handler)
    (hh : handler g a env.variantLabel = some info)
    (hne : info ≠ [])
    (hst : info.lookup "status" = some (.str "duplicate_same_worker")) :
    attempt_step env a fb pc =
      (.next (some (sameWorkerFeedback info)) pc,
       [.promptBuilt a (build_prompt_spec env fb a pc),
        .generated a
          (temperature_value env.temp env.maxRetries env.temperatureRange a)
          (.ok g),
        .dedupChecked a g (some info)]) := by
  rcases info with _ | ⟨kv, rest⟩
  · exact absurd rfl hne
  · simp [attempt_step, generationStep, providerCall, dedup_phase,
      hc, hf, hp, hd, hh, hst]

theorem attempt_step_dup_cross (env : LaneEnv) (a : Nat)
    (fb pc : Option String) (g : String)
    (handler : String → Nat → Option String → Option PyDict) (info : PyDict)
    (hc : env.cancelSet a = false) (hf : env.eventFactory = none)
    (hp : env.provider a (env.render (build_prompt_spec env fb a pc))
        (temperature_value env.temp env.maxRetries env.temperatureRange a)
      = .ok g)
    (hd : env.dedupHandler = some handler)
    (hh : handler g a env.variantLabel = some info)
    (hne : info ≠ [])
    (hst : info.lookup "status" = some (.str "duplicate_cross_worker")) :
    attempt_step env a fb pc =
      (.done (.error ⟨.transpilationAttemptError,
        "Duplicate candidate seen by another worker"⟩),
       [.promptBuilt a (build_prompt_spec env fb a pc),
        .generated a
          (temperature_value env.temp env.maxRetries env.temperatureRange a)
          (.ok g),
        .dedupChecked a g (some info)]) := by
  rcases info with _ | ⟨kv, rest⟩
  · exact absurd rfl hne
  · simp [attempt_step, generationStep, providerCall, dedup_phase,
      hc, hf, hp, hd, hh, hst]

/-! ## Claims -/

/-- C1 (counterexample): the claim says that for `max_retries = K > 1`
the temperature for attempt 1 equals the configured low bound.  With
`K = 3` and `temperature_range = (0, 1)`, `_pick_temperature(1)` is
`1/2`, not the low bound `0` (the schedule divides the 1-based attempt
index by `K - 1`, so attempt 1 sits one interpolation step above the
low bound). -/
theorem C1_counterexample :
    pick_temperature 3 (0, 1) 1 = 1 / 2 ∧
    temperature_value none 3 (0, 1) 1 = 1 / 2 ∧ (1 / 2 : Rat) ≠ 0 := by
  have h : pick_temperature 3 (0, 1) 1 = 1 / 2 := by
    show (if (3 : Nat) ≤ 1 then (0 : Rat) else _) = 1 / 2
    rw [if_neg (by omega)]
    norm_num [min_def]
  refine ⟨h, ?_, by norm_num⟩
  show pick_temperature 3 (0, 1) 1 = 1 / 2
  exact h

/-- C1 (amended): the temperature for attempt `i` of a sequential lane
with no fixed temperature is `_pick_temperature(i)`, which equals `low`
when `max_retries <= 1` and otherwise
`low + (high - low) * min(1, i / (K - 1))`; in particular the high
bound is reached at every attempt `i >= K - 1` (so at attempt `K`, but
already at attempt `K - 1`), and attempt 1 receives
`low + (high - low) / (K - 1)` rather than the low bound. -/
theorem C1_amended_schedule :
    (∀ (K : Nat) (low high : Rat) (i : Nat), K ≤ 1 →
       pick_temperature K (low, high) i = low) ∧
    (∀ (K : Nat) (low high : Rat) (i : Nat), 2 ≤ K →
       pick_temperature K (low, high) i
         = low + (high - low) * min 1 ((i : Rat) / ((K : Rat) - 1))) ∧
    (∀ (K : Nat) (low high : Rat) (i : Nat), 2 ≤ K → K - 1 ≤ i →
       pick_temperature K (low, high) i = high) ∧
    (∀ (env : LaneEnv) (j : Nat) (t : Rat) (res : Except String String),
       env.temp = none →
       LaneEvent.generated j t res ∈ (sequential_attempts env).2 →
       t = pick_temperature env.maxRetries env.temperatureRange j) := by
  have hcast : ∀ (K : Nat), 2 ≤ K → ((K - 1 : Nat) : Rat) = (K : Rat) - 1 := by
    intro K hK
    have h1 : 1 ≤ K := by omega
    push_cast [h1]
    ring
  have hform : ∀ (K : Nat) (low high : Rat) (i : Nat), 2 ≤ K →
      pick_temperature K (low, high) i
        = low + (high - low) * min 1 ((i : Rat) / ((K : Rat) - 1)) := by
    intro K low high i hK
    show (if K ≤ 1 then low else _) = _
    rw [if_neg (by omega)]
    have hmax : max 1 (K - 1) = K - 1 := by omega
    rw [hmax, hcast K hK]
  refine ⟨?_, hform, ?_, ?_⟩
  · intro K low high i hK
    show (if K ≤ 1 then low else _) = low
    rw [if_pos hK]
  · intro K low high i hK hi
    rw [hform K low high i hK]
    have hpos : (0 : Rat) < (K : Rat) - 1 := by
      rw [← hcast K hK]
      have : 1 ≤ K - 1 := by omega
      exact_mod_cast Nat.lt_of_lt_of_le Nat.zero_lt_one
        (by exact_mod_cast this)
    have hone : (1 : Rat) ≤ (i : Rat) / ((K : Rat) - 1) := by
      rw [le_div_iff₀ hpos, one_mul, ← hcast K hK]
      exact_mod_cast hi
    rw [min_eq_left hone]
    ring
  · intro env j t res htemp hmem
    have := attempts_from_generated env env.maxRetries 1 none none j t res
      hmem
    rw [this, htemp]
    rfl

/-- C1 (witness for the amended theorem): with `K = 3`,
`range = (1/5, 3/5)`: attempt 0 of the parallel-lane indexing gets the
low bound, attempt 2 and attempt 3 get the high bound, attempt 1 gets
`2/5`, and a one-attempt lane always gets the low bound. -/
theorem C1_amended_schedule_witness :
    pick_temperature 1 (1/5, 3/5) 2 = 1/5 ∧
    pick_temperature 3 (1/5, 3/5) 1 = 2/5 ∧
    pick_temperature 3 (1/5, 3/5) 3 = 3/5 := by
  refine ⟨C1_amended_schedule.1 1 (1/5) (3/5) 2 (by omega), ?_, ?_⟩
  · rw [C1_amended_schedule.2.1 3 (1/5) (3/5) 1 (by omega)]
    norm_num [min_def]
  · rw [C1_amended_schedule.2.2.1 3 (1/5) (3/5) 3 (by omega) (by omega)]

/-- C10: the lane's provider temperature is literally
`temp or _pick_temperature(attempt)`: a nonzero fixed temperature `t`
is used unchanged at every attempt, but a fixed temperature of `0.0` is
falsy in Python and silently falls back to the per-attempt schedule;
every `generate` call of a lane uses exactly this value, and the
per-lane temperature assigned to parallel lane 0 is `0` whenever the
configured low bound is `0`. -/
theorem C10_zero_fixed_temperature :
    (∀ (t : Rat) (K : Nat) (r : Rat × Rat) (i : Nat), t ≠ 0 →
       temperature_value (some t) K r i = t) ∧
    (∀ (K : Nat) (r : Rat × Rat) (i : Nat),
       temperature_value (some 0) K r i = pick_temperature K r i) ∧
    (∀ (env : LaneEnv) (j : Nat) (t : Rat) (res : Except String String),
       LaneEvent.generated j t res ∈ (sequential_attempts env).2 →
       t = temperature_value env.temp env.maxRetries env.temperatureRange j) ∧
    (∀ (K : Nat) (high : Rat), pick_temperature K (0, high) 0 = 0) := by
  refine ⟨?_, ?_, ?_, ?_⟩
  · intro t K r i ht
    simp only [temperature_value, if_neg ht]
  · intro K r i
    simp [temperature_value]
  · intro env j t res hmem
    exact attempts_from_generated env env.maxRetries 1 none none j t res
      hmem
  · intro K high
    by_cases hK : K ≤ 1
    · show (if K ≤ 1 then (0 : Rat) else _) = 0
      rw [if_pos hK]
    · show (if K ≤ 1 then (0 : Rat) else _) = 0
      rw [if_neg hK]
      norm_num [min_def]

/-- C7: first-writer-wins for the dedup registry: a digest not yet
registered gets status `unique` and its entry is created from the
caller's worker id and attempt index; any call on an already-registered
digest leaves the registry unchanged and returns
`duplicate_same_worker` or `duplicate_cross_worker` according to
whether the stored owner equals the caller; and an entry, once present,
survives any further sequence of `register_digest` calls unchanged
(so the owner is permanently the first writer, whatever the call
order). -/
theorem C7_dedup_first_writer_wins :
    (∀ (reg : Registry) (d w : String) (i : Nat),
       reg.lookup d = none →
       register_digest reg d w i =
         (("unique", none), (d, ⟨d, w, i⟩) :: reg) ∧
       List.lookup d ((d, (⟨d, w, i⟩ : DigestEntry)) :: reg) =
         some ⟨d, w, i⟩) ∧
    (∀ (reg : Registry) (d w : String) (i : Nat) (e : DigestEntry),
       reg.lookup d = some e →
       register_digest reg d w i =
         ((if e.ownerWorkerId = w then "duplicate_same_worker"
           else "duplicate_cross_worker", some e.ownerWorkerId), reg)) ∧
    (∀ (calls : List RegCall) (reg : Registry) (d : String)
       (e : DigestEntry),
       reg.lookup d = some e →
       List.lookup d (runRegisterCalls reg calls).2 = some e) := by
  have hpreserve : ∀ (reg : Registry) (c : RegCall) (d : String)
      (e : DigestEntry), reg.lookup d = some e →
      List.lookup d
        (register_digest reg c.digest c.workerId c.iterIndex).2 = some e := by
    intro reg c d e h
    unfold register_digest
    rcases hl : reg.lookup c.digest with _ | ex
    · have hne : d ≠ c.digest := by
        intro hde
        rw [hde, hl] at h
        exact Option.noConfusion h
      have hbeq : (d == c.digest) = false := by
        simpa using hne
      simp only []
      simpa [List.lookup, hbeq] using h
    · simp only []
      split <;> exact h
  refine ⟨?_, ?_, ?_⟩
  · intro reg d w i h
    constructor
    · unfold register_digest
      rw [h]
    · simp [List.lookup]
  · intro reg d w i e h
    unfold register_digest
    rw [h]
    simp only []
    by_cases hcond : e.ownerWorkerId = w <;> simp [hcond]
  · intro calls
    induction calls with
    | nil => intro reg d e h; simpa [runRegisterCalls] using h
    | cons c rest ih =>
        intro reg d e h
        simp only [runRegisterCalls]
        rcases h1 : register_digest reg c.digest c.workerId c.iterIndex with
          ⟨out, reg'⟩
        have hp := hpreserve reg c d e h
        rw [h1] at hp
        simp only []
        rcases h2 : runRegisterCalls reg' rest with ⟨outs, reg''⟩
        have := ih reg' d e hp
        rw [h2] at this
        simpa using this

/-- C7 (witness): starting from the empty registry, worker `w1`
registers digest `h` at attempt 1 (status `unique`), worker `w2` then
sees `duplicate_cross_worker`, `w1` again sees
`duplicate_same_worker`, and the stored entry still names `w1` after
the whole sequence. -/
theorem C7_dedup_first_writer_wins_witness :
    register_digest [] "h" "w1" 1 =
      (("unique", none), [("h", ⟨"h", "w1", 1⟩)]) ∧
    (register_digest [("h", ⟨"h", "w1", 1⟩)] "h" "w2" 2).1 =
      ("duplicate_cross_worker", some "w1") ∧
    (register_digest [("h", ⟨"h", "w1", 1⟩)] "h" "w1" 3).1 =
      ("duplicate_same_worker", some "w1") ∧
    List.lookup "h"
      (runRegisterCalls [("h", ⟨"h", "w1", 1⟩)]
        [⟨"h", "w2", 2⟩, ⟨"h", "w1", 3⟩]).2 = some ⟨"h", "w1", 1⟩ := by
  refine ⟨(C7_dedup_first_writer_wins.1 [] "h" "w1" 1 rfl).1, ?_, ?_, ?_⟩
  · rw [C7_dedup_first_writer_wins.2.1 [("h", ⟨"h", "w1", 1⟩)] "h" "w2" 2
      ⟨"h", "w1", 1⟩ rfl]
    simp
  · rw [C7_dedup_first_writer_wins.2.1 [("h", ⟨"h", "w1", 1⟩)] "h" "w1" 3
      ⟨"h", "w1", 1⟩ rfl]
    simp
  · exact C7_dedup_first_writer_wins.2.2
      [⟨"h", "w2", 2⟩, ⟨"h", "w1", 3⟩] [("h", ⟨"h", "w1", 1⟩)] "h"
      ⟨"h", "w1", 1⟩ rfl

/-- C9: if every parallel lane raises or returns `None`, the explorer
swallows the exceptions and returns `None`, which the orchestration
surface converts into
`TranspilationAttemptError("All parallel attempts failed for unit <id>")`;
whenever the explorer yields a candidate it is one of the lanes'
results, returned unmodified, and some lane returning a candidate
guarantees the explorer yields one. -/
theorem C9_parallel_no_winner :
    (∀ (uid : String) (outcomes : List (Except PyExc (Option Candidate))),
       (∀ o ∈ outcomes, o = .ok none ∨ ∃ exc, o = .error exc) →
       explore outcomes = none ∧
       transpile_parallel uid outcomes =
         .error ⟨.transpilationAttemptError,
           "All parallel attempts failed for unit " ++ uid⟩) ∧
    (∀ (uid : String) (outcomes : List (Except PyExc (Option Candidate)))
       (c : Candidate), explore outcomes = some c →
       Except.ok (some c) ∈ outcomes ∧
       transpile_parallel uid outcomes = .ok c) ∧
    (∀ (outcomes : List (Except PyExc (Option Candidate))) (c : Candidate),
       Except.ok (some c) ∈ outcomes →
       ∃ c', explore outcomes = some c') := by
  have hnone : ∀ (outcomes : List (Except PyExc (Option Candidate))),
      (∀ o ∈ outcomes, o = .ok none ∨ ∃ exc, o = .error exc) →
      explore outcomes = none := by
    intro outcomes
    induction outcomes with
    | nil => intro _; rfl
    | cons o rest ih =>
        intro h
        rcases h o (by simp) with h1 | ⟨exc, h2⟩
        · subst h1
          rw [explore]
          exact ih fun o ho => h o (by simp [ho])
        · subst h2
          rw [explore]
          exact ih fun o ho => h o (by simp [ho])
  have hmem : ∀ (outcomes : List (Except PyExc (Option Candidate)))
      (c : Candidate), explore outcomes = some c →
      Except.ok (some c) ∈ outcomes := by
    intro outcomes
    induction outcomes with
    | nil => intro c h; simp [explore] at h
    | cons o rest ih =>
        intro c h
        rcases o with exc | oc
        · rw [explore] at h
          exact List.mem_cons_of_mem _ (ih c h)
        · rcases oc with _ | c'
          · rw [explore] at h
            exact List.mem_cons_of_mem _ (ih c h)
          · rw [explore] at h
            obtain hc := Option.some.injEq c' c ▸ h
            simp only [Option.some.injEq] at hc
            subst hc
            exact List.mem_cons_self _ _
  refine ⟨?_, ?_, ?_⟩
  · intro uid outcomes h
    have he := hnone outcomes h
    exact ⟨he, by rw [transpile_parallel, he]⟩
  · intro uid outcomes c h
    exact ⟨hmem outcomes c h, by rw [transpile_parallel, h]⟩
  · intro outcomes c
    induction outcomes with
    | nil => intro h; simp at h
    | cons o rest ih =>
        intro h
        rcases o with exc | oc
        · rw [explore]
          rcases List.mem_cons.mp h with h1 | h1


          · exact Except.noConfusion h1
          · exact ih h1
        · rcases oc with _ | c'
          · rw [explore]
            rcases List.mem_cons.mp h with h1 | h1
            · simp at h1
            · exact ih h1
          · exact ⟨c', by rw [explore]⟩

/-- C9 (witness): with lanes `[raise, return None, return candidate]`
the candidate is returned unmodified; with lanes
`[raise, return None]` the explorer returns `None` and the surface
raises the all-lanes-failed error for unit `u`. -/
theorem C9_parallel_no_winner_witness :
    transpile_parallel "u"
      [.error ⟨.runtimeError, "boom"⟩, .ok none] =
      .error ⟨.transpilationAttemptError,
        "All parallel attempts failed for unit u"⟩ ∧
    transpile_parallel "u"
      [.error ⟨.runtimeError, "boom"⟩, .ok none,
       .ok (some ⟨[("out.py", "code")], []⟩)] =
      .ok ⟨[("out.py", "code")], []⟩ := by
  constructor
  · exact (C9_parallel_no_winner.1 "u"
      [.error ⟨.runtimeError, "boom"⟩, .ok none]
      (by intro o ho
          rcases List.mem_cons.mp ho with h | h
          · exact .inr ⟨⟨.runtimeError, "boom"⟩, h⟩
          · simp only [List.mem_singleton] at h
            exact .inl h)).2
  · exact (C9_parallel_no_winner.2.1 "u"
      [.error ⟨.runtimeError, "boom"⟩, .ok none,
       .ok (some ⟨[("out.py", "code")], []⟩)]
      ⟨[("out.py", "code")], []⟩ rfl).2

/-! ## Concrete lane environments for witnesses and counterexamples -/

/-- A one-attempt lane: plain provider returning `"code"`, an
always-failing verifier, fixed (nonzero) temperature 1, no dedup
handler, no cancellation, no event factory. -/
def baseEnv : LaneEnv :=
  { unitId := "u"
    sourceCode := some "def main():\n    return 1\n"
    unitKind := "module"
    sourceLanguage := "python"
    targetLanguage := "python"
    maxRetries := 1
    temperatureRange := (0, 0)
    providerName := "StubLLM"
    targetPath := "out.py"
    temp := some 1
    variantLabel := none
    render := fun _ => "PROMPT"
    renderTemplate := fun _ => "transpile.j2"
    provider := fun _ _ _ => .ok "code"
    verifier := some (fun _ _ => ⟨false, [("passed", Json.bool false)]⟩)
    dedupHandler := none
    cancelSet := fun _ => false
    eventFactory := none }

/-- Variant of `baseEnv` with the cancellation signal set. -/
def cancelEnv : LaneEnv := { baseEnv with cancelSet := fun _ => true }

/-- Variant of `baseEnv` with a dedup handler reporting a cross-worker duplicate. -/
def crossDupEnv : LaneEnv :=
  { baseEnv with
    dedupHandler := some (fun _ _ _ =>
      some [("status", Json.str "duplicate_cross_worker")]) }

/-- Variant of `baseEnv` with a dedup handler reporting a same-worker duplicate. -/
def sameDupEnv : LaneEnv :=
  { baseEnv with
    dedupHandler := some (fun _ _ _ =>
      some [("status", Json.str "duplicate_same_worker")]) }

/-- Variant of `baseEnv` with three attempts and a provider that always raises. -/
def provFailEnv : LaneEnv :=
  { baseEnv with maxRetries := 3, provider := fun _ _ _ => .error "boom" }

/-- Variant of `baseEnv` with two attempts and a verifier that fails attempt 1 and
passes attempt 2. -/
def successEnv : LaneEnv :=
  { baseEnv with
    maxRetries := 2,
    verifier :=
      some (fun a _ => ⟨a == 2, [("attempt", Json.num (Int.ofNat a))]⟩) }

/-- C2 (counterexample): the claim says the three terminal lane
failures raise distinct, caller-distinguishable error types.  In the
code all three raise the single class `TranspilationAttemptError` —
here three concrete runs, one per terminal cause, all produce an error
of that same class, so the causes cannot be told apart by type
alone. -/
theorem C2_counterexample :
    (sequential_attempts cancelEnv).1 =
      .error ⟨.transpilationAttemptError,
        "Transpiler canceled by orchestrator"⟩ ∧
    (sequential_attempts crossDupEnv).1 =
      .error ⟨.transpilationAttemptError,
        "Duplicate candidate seen by another worker"⟩ ∧
    (sequential_attempts baseEnv).1 =
      .error ⟨.transpilationAttemptError,
        "Failed to transpile unit u within retry budget"⟩ :=
  ⟨rfl, rfl, rfl⟩

/-- C2 (amended): all three terminal lane failures raise the same
exception class `TranspilationAttemptError`; they are distinguishable
only by message, not by type: cancellation yields
"Transpiler canceled by orchestrator", a cross-owner duplicate yields
"Duplicate candidate seen by another worker", and budget exhaustion
yields "Failed to transpile unit <id> within retry budget" — and these
three messages are pairwise distinct for every unit id. -/
theorem C2_amended_single_error_type :
    (∀ (env : LaneEnv) (n a : Nat) (fb pc : Option String),
       env.cancelSet a = true →
       (attempts_from env (n + 1) a fb pc).1 =
         .error ⟨.transpilationAttemptError,
           "Transpiler canceled by orchestrator"⟩) ∧
    (∀ (env : LaneEnv) (a : Nat) (fb pc : Option String) (g : String)
       (handler : String → Nat → Option String → Option PyDict)
       (info : PyDict) (n : Nat),
       env.cancelSet a = false → env.eventFactory = none →
       env.provider a (env.render (build_prompt_spec env fb a pc))
         (temperature_value env.temp env.maxRetries env.temperatureRange a)
         = .ok g →
       env.dedupHandler = some handler →
       handler g a env.variantLabel = some info →
       info ≠ [] →
       info.lookup "status" = some (.str "duplicate_cross_worker") →
       (attempts_from env (n + 1) a fb pc).1 =
         .error ⟨.transpilationAttemptError,
           "Duplicate candidate seen by another worker"⟩) ∧
    (∀ (env : LaneEnv) (a : Nat) (fb pc : Option String),
       (attempts_from env 0 a fb pc).1 = .error (budgetError env.unitId)) ∧
    (∀ uid : String, budgetError uid =
       ⟨.transpilationAttemptError,
        "Failed to transpile unit " ++ uid ++ " within retry budget"⟩) ∧
    ("Transpiler canceled by orchestrator" ≠
       "Duplicate candidate seen by another worker") ∧
    (∀ uid : String,
       (budgetError uid).message ≠ "Transpiler canceled by orchestrator" ∧
       (budgetError uid).message ≠
         "Duplicate candidate seen by another worker") := by
  refine ⟨?_, ?_, ?_, ?_, ?_, ?_⟩
  · intro env n a fb pc h
    simp [attempts_from, attempt_step, h]
  · intro env a fb pc g handler info n hc hf hp hd hh hne hst
    have hstep := attempt_step_dup_cross env a fb pc g handler info hc hf
      hp hd hh hne hst
    simp [attempts_from, hstep]
  · intro env a fb pc
    rfl
  · intro uid
    rfl
  · decide
  · intro uid
    have h1 : ("Failed to transpile unit " : String).length = 25 := rfl
    have h2 : (" within retry budget" : String).length = 20 := rfl
    have h3 : ("Transpiler canceled by orchestrator" : String).length = 35 :=
      rfl
    have h4 : ("Duplicate candidate seen by another worker" : String).length
        = 42 := rfl
    have hmsg : (budgetError uid).message =
        "Failed to transpile unit " ++ uid ++ " within retry budget" := rfl
    constructor <;> intro hEq <;>
      (have hl := congrArg String.length hEq;
       rw [hmsg, String.length_append, String.length_append] at hl;
       omega)

/-- C2 (witness for the amended theorem): the three terminal causes on
concrete one-attempt lanes for unit `u`, plus the message
distinctness at `u`. -/
theorem C2_amended_single_error_type_witness :
    (attempts_from cancelEnv 1 1 none none).1 =
      .error ⟨.transpilationAttemptError,
        "Transpiler canceled by orchestrator"⟩ ∧
    (attempts_from crossDupEnv 1 1 none none).1 =
      .error ⟨.transpilationAttemptError,
        "Duplicate candidate seen by another worker"⟩ ∧
    (attempts_from baseEnv 0 1 none none).1 =
      .error (budgetError "u") ∧
    (budgetError "u").message ≠ "Transpiler canceled by orchestrator" := by
  refine ⟨C2_amended_single_error_type.1 cancelEnv 0 1 none none rfl,
    ?_,
    C2_amended_single_error_type.2.2.1 baseEnv 1 none none,
    (C2_amended_single_error_type.2.2.2.2.2 "u").1⟩
  exact C2_amended_single_error_type.2.1 crossDupEnv 1 none none "code" _
    [("status", Json.str "duplicate_cross_worker")] 0 rfl rfl rfl rfl rfl
    (by simp) rfl

/-- C3 (counterexample): the claim says a provider exception at attempt
`i < max_retries` is retried at attempt `i + 1` within the lane.  On a
three-attempt lane whose provider raises `"boom"` at attempt 1, the
lane instead raises the wrapped generation error immediately: only one
generation call happens and no attempt-2 events exist. -/
theorem C3_counterexample :
    (sequential_attempts provFailEnv).1 =
      .error ⟨.transpilationAttemptError,
        "LLM provider \x27StubLLM\x27 failed: boom"⟩ ∧
    genCount (sequential_attempts provFailEnv).2 = 1 ∧
    (sequential_attempts provFailEnv).2.map LaneEvent.attemptOf = [1, 1] :=
  ⟨rfl, rfl, rfl⟩

/-- C3 (amended): when the synchronous provider call raises during any
attempt of a sequential lane, the lane wraps the exception as
`TranspilationAttemptError("LLM provider '<name>' failed: <exc>")` and
propagates it out of the lane immediately: the failing attempt is the
last one, no further attempt is made and the retry budget is not
consumed any further. -/
theorem C3_amended_generation_error_propagates :
    ∀ (env : LaneEnv) (n a : Nat) (fb pc : Option String) (e : String),
      env.cancelSet a = false → env.eventFactory = none →
      env.provider a (env.render (build_prompt_spec env fb a pc))
        (temperature_value env.temp env.maxRetries env.temperatureRange a)
        = .error e →
      attempts_from env (n + 1) a fb pc =
        (.error ⟨.transpilationAttemptError,
           "LLM provider \x27" ++ env.providerName ++ "\x27 failed: " ++ e⟩,
         [.promptBuilt a (build_prompt_spec env fb a pc),
          .generated a
            (temperature_value env.temp env.maxRetries env.temperatureRange a)
            (.error e)]) := by
  intro env n a fb pc e hc hf hp
  simp [attempts_from, attempt_step, generationStep, providerCall, hc, hf,
    hp]

/-- C3 (witness for the amended theorem): the provider-failure lane
raises the wrapped error with exactly one generation event, at every
remaining-budget count. -/
theorem C3_amended_generation_error_propagates_witness :
    attempts_from provFailEnv 3 1 none none =
      (.error ⟨.transpilationAttemptError,
         "LLM provider \x27StubLLM\x27 failed: boom"⟩,
       [.promptBuilt 1 (build_prompt_spec provFailEnv none 1 none),
        .generated 1 1 (.error "boom")]) := by
  exact C3_amended_generation_error_propagates provFailEnv 2 1 none none
    "boom" rfl rfl rfl

/-- C4: with an always-failing verifier and a plain lane configuration
(no dedup handler, no cancellation, no event factory, provider always
succeeding), a sequential lane performs exactly `max_retries`
generation calls and `max_retries` verification calls, raises
`TranspilationAttemptError("Failed to transpile unit <id> within retry
budget")`, and never returns a `CandidatePatchSet`. -/
theorem C4_exhaustion (env : LaneEnv) (v : Nat → String → VerifyResult)
    (hc : ∀ a, env.cancelSet a = false) (hf : env.eventFactory = none)
    (hd : env.dedupHandler = none) (hv : env.verifier = some v)
    (hfail : ∀ a c, (v a c).passed = false)
    (hprov : ∀ a p t, ∃ g, env.provider a p t = .ok g) :
    (sequential_attempts env).1 =
      .error ⟨.transpilationAttemptError,
        "Failed to transpile unit " ++ env.unitId
          ++ " within retry budget"⟩ ∧
    genCount (sequential_attempts env).2 = env.maxRetries ∧
    verifyCount (sequential_attempts env).2 = env.maxRetries ∧
    ∀ c, (sequential_attempts env).1 ≠ .ok c := by
  obtain ⟨h1, h2, h3⟩ := attempts_from_exhaust env v hc hf hd hv hfail
    hprov env.maxRetries 1 none none
  refine ⟨h1, h2, h3, ?_⟩
  intro c hcontra
  have hfalse : Except.error (budgetError env.unitId) = Except.ok c := by
    rw [← h1]
    exact hcontra
  exact Except.noConfusion hfalse

/-- C4 (witness): the one-attempt always-fail lane makes exactly one
generation and one verification call and raises the budget error. -/
theorem C4_exhaustion_witness :
    (sequential_attempts baseEnv).1 =
      .error ⟨.transpilationAttemptError,
        "Failed to transpile unit u within retry budget"⟩ ∧
    genCount (sequential_attempts baseEnv).2 = 1 ∧
    verifyCount (sequential_attempts baseEnv).2 = 1 := by
  obtain ⟨h1, h2, h3, _⟩ := C4_exhaustion baseEnv
    (fun _ _ => ⟨false, [("passed", Json.bool false)]⟩)
    (fun _ => rfl) rfl rfl rfl (fun _ _ => rfl)
    (fun _ _ _ => ⟨"code", rfl⟩)
  exact ⟨h1, h2, h3⟩

/-- C5: if the verifier fails every attempt before `i` and passes at
attempt `i` (with `1 <= i <= max_retries`), a plain sequential lane
makes exactly `i` generation and `i` verification calls, no event of
any later attempt exists, and the lane returns the attempt-`i`
candidate with the verification detail attached under the
`"verification"` notes key. -/
theorem C5_first_success_wins (env : LaneEnv)
    (v : Nat → String → VerifyResult) (i : Nat)
    (hc : ∀ a, env.cancelSet a = false) (hf : env.eventFactory = none)
    (hd : env.dedupHandler = none) (hv : env.verifier = some v)
    (hbefore : ∀ a c, a < i → (v a c).passed = false)
    (hat : ∀ c, (v i c).passed = true)
    (hprov : ∀ a p t, ∃ g, env.provider a p t = .ok g)
    (hge : 1 ≤ i) (hle : i ≤ env.maxRetries) :
    ∃ g spec,
      (sequential_attempts env).1 =
        .ok ⟨[(env.targetPath, g)],
          attemptNotes env i spec "provider" none
            ++ [("verification", Json.obj (v i g).details)]⟩ ∧
      List.lookup "verification"
        (attemptNotes env i spec "provider" none
          ++ [("verification", Json.obj (v i g).details)]) =
        some (Json.obj (v i g).details) ∧
      genCount (sequential_attempts env).2 = i ∧
      verifyCount (sequential_attempts env).2 = i ∧
      ∀ e ∈ (sequential_attempts env).2, e.attemptOf ≤ i := by
  obtain ⟨g, spec, hres, _, hgc, hvc, hbound⟩ :=
    attempts_from_first_success env v i hc hf hd hv hbefore hat hprov
      env.maxRetries 1 none none hge (by omega)
  have hi1 : i + 1 - 1 = i := by omega
  rw [hi1] at hgc hvc
  exact ⟨g, spec, hres,
    lookup_verification env i spec "provider" none _, hgc, hvc, hbound⟩

/-- C5 (witness): on the two-attempt lane whose verifier passes only at
attempt 2, exactly two generation and two verification calls happen
and the lane returns a candidate. -/
theorem C5_first_success_wins_witness :
    genCount (sequential_attempts successEnv).2 = 2 ∧
    verifyCount (sequential_attempts successEnv).2 = 2 ∧
    ((sequential_attempts successEnv).1.toOption).isSome = true := by
  obtain ⟨g, spec, hres, _, hgc, hvc, _⟩ :=
    C5_first_success_wins successEnv
      (fun a _ => ⟨a == 2, [("attempt", Json.num (Int.ofNat a))]⟩) 2
      (fun _ => rfl) rfl rfl rfl
      (by intro a c h
          simp only [beq_eq_false_iff_ne, ne_eq]
          omega)
      (fun _ => rfl) (fun _ _ _ => ⟨"code", rfl⟩) (by omega) Nat.le.refl
  refine ⟨hgc, hvc, ?_⟩
  rw [hres]
  rfl

/-- C6: within one sequential lane, whenever attempt `i` was verified
and failed, the prompt context of attempt `i + 1` carries exactly the
JSON serialization of attempt `i`'s verification detail as its
feedback (and hence the refine prompt kind), and the prompt context of
attempt 1 always carries empty feedback and the initial prompt kind. -/
theorem C6_feedback_threading (env : LaneEnv) :
    (∀ (i : Nat) (c : String) (r : VerifyResult) (spec : PromptSpec),
       LaneEvent.verified i c r ∈ (sequential_attempts env).2 →
       r.passed = false →
       LaneEvent.promptBuilt (i + 1) spec ∈ (sequential_attempts env).2 →
       spec.feedback = Json.dumps (Json.obj r.details) ∧
         spec.kind = "transpile_refine") ∧
    (∀ spec : PromptSpec,
       LaneEvent.promptBuilt 1 spec ∈ (sequential_attempts env).2 →
       spec.feedback = "" ∧ spec.kind = "transpile_initial") := by
  constructor
  · intro i c r spec hv hf hp
    exact attempts_from_threading env env.maxRetries 1 none none i c r
      spec hv hf hp
  · intro spec hp
    have hs := attempts_from_promptBuilt env env.maxRetries 1 none none
      spec hp
    subst hs
    exact ⟨rfl, rfl⟩

/-- C6 (witness): in the two-attempt lane, attempt 1's failed
verification detail `{"attempt": 1}` is serialized and appears as
attempt 2's feedback with the refine kind, while attempt 1's prompt has
empty feedback and the initial kind. -/
theorem C6_feedback_threading_witness :
    ((build_prompt_spec successEnv
        (some (Json.dumps (Json.obj [("attempt", Json.num 1)]))) 2
        (some "code")).feedback
      = Json.dumps (Json.obj [("attempt", Json.num 1)]) ∧
     (build_prompt_spec successEnv
        (some (Json.dumps (Json.obj [("attempt", Json.num 1)]))) 2
        (some "code")).kind = "transpile_refine") ∧
    ((build_prompt_spec successEnv none 1 none).feedback = "" ∧
     (build_prompt_spec successEnv none 1 none).kind =
       "transpile_initial") := by
  constructor
  · exact (C6_feedback_threading successEnv).1 1 "code"
      ⟨false, [("attempt", Json.num 1)]⟩
      (build_prompt_spec successEnv
        (some (Json.dumps (Json.obj [("attempt", Json.num 1)]))) 2
        (some "code"))
      (List.Mem.tail _ (List.Mem.tail _ (List.Mem.head _))) rfl
      (List.Mem.tail _ (List.Mem.tail _ (List.Mem.tail _
        (List.Mem.head _))))
  · exact (C6_feedback_threading successEnv).2
      (build_prompt_spec successEnv none 1 none) (List.Mem.head _)

/-- C8: when the dedup handler reports `duplicate_same_worker` for the
code generated at an attempt, the lane skips verification for that
attempt, sets the next attempt's feedback to the serialized repetition
note `{"reason": "duplicate_same_worker", "dedup": <info>}` (leaving
`previous_code` unchanged), and continues with the next attempt — so
the duplicate consumes one slot of the retry budget; when the handler
reports `duplicate_cross_worker`, the lane raises
`TranspilationAttemptError("Duplicate candidate seen by another
worker")` immediately, again without invoking the verifier. -/
theorem C8_dedup_same_and_cross_worker :
    (∀ (env : LaneEnv) (a : Nat) (fb pc : Option String) (g : String)
       (handler : String → Nat → Option String → Option PyDict)
       (info : PyDict) (n : Nat),
       env.cancelSet a = false → env.eventFactory = none →
       env.provider a (env.render (build_prompt_spec env fb a pc))
         (temperature_value env.temp env.maxRetries env.temperatureRange a)
         = .ok g →
       env.dedupHandler = some handler →
       handler g a env.variantLabel = some info →
       info ≠ [] →
       info.lookup "status" = some (.str "duplicate_same_worker") →
       attempt_step env a fb pc =
         (.next (some (sameWorkerFeedback info)) pc,
          [.promptBuilt a (build_prompt_spec env fb a pc),
           .generated a (temperature_value env.temp env.maxRetries
             env.temperatureRange a) (.ok g),
           .dedupChecked a g (some info)]) ∧
       sameWorkerFeedback info =
         Json.dumps (.obj [("reason", .str "duplicate_same_worker"),
                           ("dedup", .obj info)]) ∧
       verifyCount (attempt_step env a fb pc).2 = 0 ∧
       attempts_from env (n + 1) a fb pc =
         ((attempts_from env n (a + 1)
             (some (sameWorkerFeedback info)) pc).1,
          (attempt_step env a fb pc).2 ++
            (attempts_from env n (a + 1)
              (some (sameWorkerFeedback info)) pc).2)) ∧
    (∀ (env : LaneEnv) (a : Nat) (fb pc : Option String) (g : String)
       (handler : String → Nat → Option String → Option PyDict)
       (info : PyDict) (n : Nat),
       env.cancelSet a = false → env.eventFactory = none →
       env.provider a (env.render (build_prompt_spec env fb a pc))
         (temperature_value env.temp env.maxRetries env.temperatureRange a)
         = .ok g →
       env.dedupHandler = some handler →
       handler g a env.variantLabel = some info →
       info ≠ [] →
       info.lookup "status" = some (.str "duplicate_cross_worker") →
       attempt_step env a fb pc =
         (.done (.error ⟨.transpilationAttemptError,
            "Duplicate candidate seen by another worker"⟩),
          [.promptBuilt a (build_prompt_spec env fb a pc),
           .generated a (temperature_value env.temp env.maxRetries
             env.temperatureRange a) (.ok g),
           .dedupChecked a g (some info)]) ∧
       verifyCount (attempt_step env a fb pc).2 = 0 ∧
       (attempts_from env (n + 1) a fb pc).1 =
         .error ⟨.transpilationAttemptError,
           "Duplicate candidate seen by another worker"⟩) := by
  constructor
  · intro env a fb pc g handler info n hc hf hp hd hh hne hst
    have hstep := attempt_step_dup_same env a fb pc g handler info hc hf
      hp hd hh hne hst
    refine ⟨hstep, rfl, ?_, ?_⟩
    · rw [hstep]
      rfl
    · simp only [attempts_from, hstep]
  · intro env a fb pc g handler info n hc hf hp hd hh hne hst
    have hstep := attempt_step_dup_cross env a fb pc g handler info hc hf
      hp hd hh hne hst
    refine ⟨hstep, ?_, ?_⟩
    · rw [hstep]
      rfl
    · simp only [attempts_from, hstep]

/-- C8 (witness): concrete one-attempt lanes whose handlers report a
same-worker and a cross-worker duplicate for the generated code. -/
theorem C8_dedup_same_and_cross_worker_witness :
    attempt_step sameDupEnv 1 none none =
      (.next (some (sameWorkerFeedback
          [("status", Json.str "duplicate_same_worker")])) none,
       [.promptBuilt 1 (build_prompt_spec sameDupEnv none 1 none),
        .generated 1 1 (.ok "code"),
        .dedupChecked 1 "code"
          (some [("status", Json.str "duplicate_same_worker")])]) ∧
    verifyCount (attempt_step sameDupEnv 1 none none).2 = 0 ∧
    (attempts_from crossDupEnv 1 1 none none).1 =
      .error ⟨.transpilationAttemptError,
        "Duplicate candidate seen by another worker"⟩ := by
  obtain ⟨h1, _, h3, _⟩ := C8_dedup_same_and_cross_worker.1 sameDupEnv 1
    none none "code" _ [("status", Json.str "duplicate_same_worker")] 0
    rfl rfl rfl rfl rfl (by simp) rfl
  obtain ⟨_, _, h6⟩ := C8_dedup_same_and_cross_worker.2 crossDupEnv 1
    none none "code" _ [("status", Json.str "duplicate_cross_worker")] 0
    rfl rfl rfl rfl rfl (by simp) rfl
  exact ⟨h1, h3, h6⟩

/-- C10 (witness): a fixed temperature `1/2` is used unchanged; a fixed
temperature `0` falls back to the schedule; the one generation event of
the concrete one-attempt lane carries its fixed temperature `1`; and
parallel lane index 0 is assigned temperature `0` when the low bound is
`0`. -/
theorem C10_zero_fixed_temperature_witness :
    temperature_value (some (1/2)) 3 (0, 1) 1 = 1/2 ∧
    temperature_value (some 0) 3 (0, 1) 1 = pick_temperature 3 (0, 1) 1 ∧
    (1 : Rat) =
      temperature_value baseEnv.temp baseEnv.maxRetries
        baseEnv.temperatureRange 1 ∧
    pick_temperature 4 (0, 1) 0 = 0 := by
  refine ⟨C10_zero_fixed_temperature.1 (1/2) 3 (0, 1) 1 (by norm_num),
    C10_zero_fixed_temperature.2.1 3 (0, 1) 1, ?_,
    C10_zero_fixed_temperature.2.2.2 4 1⟩
  exact C10_zero_fixed_temperature.2.2.1 baseEnv 1 1 (.ok "code")
    (List.Mem.tail _ (List.Mem.head _))

end Langformer
